import Mathlib

/-
Verification of the MiniHack base environment (src/nle/minihack/base.py)
against its natural-language specification.

The embedding models the observation-windowing and episode-termination
logic of the class MiniHack:
  - numpy integer indexing (with negative-index wrap-around) and slicing
    (with clipping), as used by the description lookups and the crop;
  - MiniHack._crop_observation          -> crop_observation
  - MiniHack.get_screen_description     -> get_screen_description
  - MiniHack.get_neighbor_descriptions  -> get_neighbor_descriptions
  - MiniHack.index_to_dir_action        -> index_to_dir_action
  - MiniHack.get_direction_obj          -> get_direction_obj
  - MiniHack.key_in_inventory           -> key_in_inventory
  - MiniHack._is_episode_end            -> is_episode_end
  - the call order of MiniHack.__init__ / MiniHack.reset with respect to
    reward_manager.reset()              -> minihack_init_trace,
    minihack_reset_trace, minihack_init_check (the two oddity asserts).

Text buffers are modelled as lists of byte values (List Nat); decoding a
(well-formed ASCII) buffer to text is the identity on that byte list.
A 2-D observation field is a List (List ...) in row-major order, and the
screen-description field is rows x cols of fixed-capacity byte buffers.
Python exceptions (IndexError from numpy fancy indexing or from
np.where(...)[0][0] on a buffer with no zero byte) are modelled by Option:
none is a raised error, some v a normal return.
-/

namespace MiniHack

/-- Result of numpy integer indexing into an axis of length n: index i is
accepted if -n <= i < n, negative indices wrapping to n + i; anything else
raises IndexError (modelled as none). -/
def npIndex (n : Nat) (i : Int) : Option Nat :=
  if 0 ≤ i ∧ i < (n : Int) then some i.toNat
  else if -(n : Int) ≤ i ∧ i < 0 then some (i + n).toNat
  else none

/-- The natural index an in-range numpy index i resolves to (negative
indices counted from the far edge). -/
def wrapIdx (n : Nat) (i : Int) : Nat :=
  if 0 ≤ i then i.toNat else (i + n).toNat

/-- The byte buffer stored at row r, column c of a screen-description
field (defaulting to the empty buffer out of range). -/
def cellAt (field : List (List (List Nat))) (r c : Nat) : List Nat :=
  (field.getD r []).getD c []

/-- Index of the first zero byte of a buffer, if any: the embedding of
np.where(des_arr == 0)[0][0], which raises when no byte is zero. -/
def firstZeroIdx : List Nat → Option Nat
  | [] => none
  | b :: rest => if b = 0 then some 0 else (firstZeroIdx rest).map (· + 1)

/-- A buffer trimmed at its first zero byte (the whole buffer when no byte
is zero). -/
def trimZero (buf : List Nat) : List Nat :=
  buf.take ((firstZeroIdx buf).getD buf.length)

/-- The trimmed text of the cell a (possibly negative) coordinate pair
resolves to, for a field whose rows all have length cols. -/
def cellText (field : List (List (List Nat))) (cols : Nat) (x y : Int) : List Nat :=
  trimZero (cellAt field (wrapIdx field.length y) (wrapIdx cols x))

/-- Embedding of np.pad(obs, pad_width=(before, after), mode="constant",
constant_values=pad) on a 2-D array: numpy reads the scalar pair
(before, after) as that same (before, after) padding applied to BOTH axes. -/
def npPad (pad before after : Nat) (obs : List (List Nat)) : List (List Nat) :=
  let cols := (obs.headD []).length
  let fullRow : List Nat := List.replicate (before + cols + after) pad
  List.replicate before fullRow
    ++ obs.map (fun r => List.replicate before pad ++ r ++ List.replicate after pad)
    ++ List.replicate after fullRow

/-- Embedding of the 2-D slice a[r1:r2, c1:c2] with nonnegative bounds:
numpy clips a slice that runs past the end of an axis. -/
def slice2 (a : List (List Nat)) (r1 r2 c1 c2 : Nat) : List (List Nat) :=
  ((a.drop r1).take (r2 - r1)).map (fun row => (row.drop c1).take (c2 - c1))

/-- Embedding of MiniHack._crop_observation (base.py lines 284-298):
dh = obs_crop_h // 2, dw = obs_crop_w // 2, the anchor loc = (x, y) is
offset by (dw, dh), the field is padded with np.pad(obs, pad_width=(dw, dh))
and the slice [y - dh : y + dh + 1, x - dw : x + dw + 1] is returned. -/
def crop_observation (obs_crop_h obs_crop_w obs_crop_pad : Nat)
    (obs : List (List Nat)) (loc : Nat × Nat) : List (List Nat) :=
  let dh := obs_crop_h / 2
  let dw := obs_crop_w / 2
  let x := loc.1 + dw
  let y := loc.2 + dh
  let padded := npPad obs_crop_pad dw dh obs
  slice2 padded (y - dh) (y + dh + 1) (x - dw) (x + dw + 1)

/-- Shape of the Box observation space that MINIHACK_SPACE_FUNCS declares
for every cropped observation key (base.py lines 31-59 together with
get_obs_space_dict): (obs_crop_h, obs_crop_w). -/
def minihack_crop_space_shape (obs_crop_h obs_crop_w : Nat) : Nat × Nat :=
  (obs_crop_h, obs_crop_w)

/-- Embedding of MiniHack.get_screen_description (base.py lines 389-397):
des_arr = observation[...][y, x] (numpy integer indexing on both axes),
symb_len = np.where(des_arr == 0)[0][0], return des_arr[:symb_len]
decoded. -/
def get_screen_description (field : List (List (List Nat))) (x y : Int) :
    Option (List Nat) :=
  (npIndex field.length y).bind fun r =>
    (field.get? r).bind fun row =>
      (npIndex row.length x).bind fun c =>
        (row.get? c).bind fun buf =>
          (firstZeroIdx buf).map fun len => buf.take len

/-- Embedding of MiniHack.get_neighbor_descriptions (base.py lines
362-374): the comprehension [get_screen_description(i, j) for j in
range(y - 1, y + 2) for i in range(x - 1, x + 2)], unrolled; a raised
IndexError in any of the nine lookups aborts the whole call. -/
def get_neighbor_descriptions (field : List (List (List Nat))) (x y : Int) :
    Option (List (List Nat)) :=
  (get_screen_description field (x - 1) (y - 1)).bind fun d0 =>
    (get_screen_description field x (y - 1)).bind fun d1 =>
      (get_screen_description field (x + 1) (y - 1)).bind fun d2 =>
        (get_screen_description field (x - 1) y).bind fun d3 =>
          (get_screen_description field x y).bind fun d4 =>
            (get_screen_description field (x + 1) y).bind fun d5 =>
              (get_screen_description field (x - 1) (y + 1)).bind fun d6 =>
                (get_screen_description field x (y + 1)).bind fun d7 =>
                  (get_screen_description field (x + 1) (y + 1)).map fun d8 =>
                    [d0, d1, d2, d3, d4, d5, d6, d7, d8]

/-- Python substring membership, name in text, on byte lists. -/
def containsSub : List Nat → List Nat → Bool
  | [], needle => needle.isEmpty
  | hay@(_ :: t), needle => needle.isPrefixOf hay || containsSub t needle

/-- Embedding of MiniHack.index_to_dir_action (base.py lines 329-346):
the fixed table from row-major neighborhood index to the ASCII code of
the direction key, with the center index 4 mapped to None. Indices
outside 0..8 are rejected by an assert in the source and never reach the
table. -/
def index_to_dir_action : Nat → Option Nat
  | 0 => some (Char.toNat 'y')
  | 1 => some (Char.toNat 'k')
  | 2 => some (Char.toNat 'u')
  | 3 => some (Char.toNat 'h')
  | 4 => none
  | 5 => some (Char.toNat 'l')
  | 6 => some (Char.toNat 'b')
  | 7 => some (Char.toNat 'j')
  | 8 => some (Char.toNat 'n')
  | _ => none

/-- The enumerate loop inside MiniHack.get_direction_obj: scan the
descriptions from index i upward and return index_to_dir_action of the
first index whose description contains the name; None when the loop
finishes without a match. -/
def dirScan (name : List Nat) : List (List Nat) → Nat → Option Nat
  | [], _ => none
  | d :: rest, i =>
    if containsSub d name then index_to_dir_action i else dirScan name rest (i + 1)

/-- Embedding of MiniHack.get_direction_obj (base.py lines 348-360): get
the nine neighbor descriptions (propagating a raised IndexError), then
return the direction of the first description containing the name. The
outer Option is the error channel; the inner Option is the returned
direction-or-None. -/
def get_direction_obj (field : List (List (List Nat))) (name : List Nat)
    (x y : Int) : Option (Option Nat) :=
  (get_neighbor_descriptions field x y).map fun neighbors => dirScan name neighbors 0

/-- Embedding of MiniHack.key_in_inventory (base.py lines 303-327): walk
the zipped (inv_letters, inv_strs) pairs in order; break at the first
all-zero line; return the letter of the first line whose decoded text
contains the name; None otherwise. -/
def key_in_inventory : List (Nat × List Nat) → List Nat → Option Nat
  | [], _ => none
  | (letter, line) :: rest, name =>
    if line.all (· == 0) then none
    else if containsSub line name then some letter
    else key_in_inventory rest name

/-- The NLE StepStatus values relevant to MiniHack._is_episode_end. -/
inductive StepStatus : Type
  | aborted : StepStatus
  | running : StepStatus
  | death : StepStatus
  | task_successful : StepStatus
deriving DecidableEq

/-- Embedding of MiniHack._is_episode_end (base.py lines 202-213): when a
reward manager is attached, its check_episode_end_call on the
(previous observation, previous action, observation) triple decides
TASK_SUCCESSFUL; in every other case the call falls through to
super()._is_episode_end, the NetHackStaircase default staircase check,
here an abstract parameter parentCheck. -/
def is_episode_end {O A : Type} (rm : Option (O → A → O → Bool))
    (parentCheck : O → StepStatus) (prev : O) (act : A) (cur : O) : StepStatus :=
  match rm with
  | some check =>
    if check prev act cur then StepStatus.task_successful else parentCheck cur
  | none => parentCheck cur

/-- Events of the construction / reset control flow of MiniHack that the
call-order properties are about. -/
inductive Ev : Type
  | rmReset : Ev
  | superInit : Ev
  | patchDes : Ev
  | superReset : Ev
deriving DecidableEq

/-- Call order of MiniHack.__init__ (base.py lines 87-151): when a reward
manager is attached, reward_manager.reset() is called (lines 127-129)
before super().__init__ (line 131) and before the des-file patching
(line 134). -/
def minihack_init_trace (hasRM : Bool) : List Ev :=
  (if hasRM then [Ev.rmReset] else []) ++ [Ev.superInit, Ev.patchDes]

/-- Call order of MiniHack.reset (base.py lines 176-179): when a reward
manager is attached, reward_manager.reset() is called before
super().reset(). -/
def minihack_reset_trace (hasRM : Bool) : List Ev :=
  (if hasRM then [Ev.rmReset] else []) ++ [Ev.superReset]

/-- The two construction-time asserts of MiniHack.__init__ (base.py lines
140-141): assert obs_crop_h % 2 == 1, then assert obs_crop_w % 2 == 1; a
failed assert is a fatal AssertionError. -/
def minihack_init_check (obs_crop_h obs_crop_w : Nat) :
    Except String (Nat × Nat) :=
  if obs_crop_h % 2 = 1 then
    if obs_crop_w % 2 = 1 then Except.ok (obs_crop_h, obs_crop_w)
    else Except.error "AssertionError: obs_crop_w % 2 == 1"
  else Except.error "AssertionError: obs_crop_h % 2 == 1"

/-! Helper lemmas about the numpy-indexing primitives. -/

lemma npIndex_in {n : Nat} {i : Int} (h1 : -(n : Int) ≤ i) (h2 : i < n) :
    npIndex n i = some (wrapIdx n i) := by
  unfold npIndex wrapIdx
  by_cases h0 : 0 ≤ i
  · rw [if_pos ⟨h0, h2⟩, if_pos h0]
  · rw [if_neg (by omega), if_pos ⟨h1, by omega⟩, if_neg h0]

lemma npIndex_out {n : Nat} {i : Int} (h : i < -(n : Int) ∨ (n : Int) ≤ i) :
    npIndex n i = none := by
  unfold npIndex
  rw [if_neg (by omega), if_neg (by omega)]

lemma wrapIdx_lt {n : Nat} {i : Int} (h1 : -(n : Int) ≤ i) (h2 : i < n) :
    wrapIdx n i < n := by
  unfold wrapIdx
  split <;> omega

lemma wrapIdx_nonneg_eq {n : Nat} {i : Int} (h : 0 ≤ i) :
    wrapIdx n i = i.toNat := by
  unfold wrapIdx
  rw [if_pos h]

lemma wrapIdx_neg_eq {n : Nat} {i : Int} (h : i < 0) :
    wrapIdx n i = (i + n).toNat := by
  unfold wrapIdx
  rw [if_neg (by omega)]

lemma get?_eq_getD {α : Type} {l : List α} {n : Nat} (d : α) (h : n < l.length) :
    l.get? n = some (l.getD n d) := by
  simp [List.getD, List.get?_eq_getElem?, List.getElem?_eq_getElem h]

lemma getD_mem {α : Type} {l : List α} {n : Nat} (d : α) (h : n < l.length) :
    l.getD n d ∈ l := by
  exact List.get?_mem (get?_eq_getD d h)

lemma firstZeroIdx_isSome {buf : List Nat} (h : 0 ∈ buf) :
    (firstZeroIdx buf).isSome := by
  induction buf with
  | nil => simp at h
  | cons b rest ih =>
    unfold firstZeroIdx
    by_cases hb : b = 0
    · rw [if_pos hb]; rfl
    · rw [if_neg hb]
      have hr : 0 ∈ rest := by
        rcases List.mem_cons.mp h with h' | h'
        · omega
        · exact h'
      rcases Option.isSome_iff_exists.mp (ih hr) with ⟨k, hk⟩
      rw [hk]; rfl

lemma firstZeroIdx_map_take {buf : List Nat} (h : (firstZeroIdx buf).isSome) :
    (firstZeroIdx buf).map (fun len => buf.take len) = some (trimZero buf) := by
  rcases Option.isSome_iff_exists.mp h with ⟨k, hk⟩
  rw [trimZero, hk]
  rfl

/-- Characterization of a successful single-cell description lookup: for a
rectangular, sentinel-terminated field and numpy-acceptable coordinates,
the lookup returns the trimmed text of the wrapped cell. -/
lemma gsd_eq_some {field : List (List (List Nat))} {cols : Nat}
    (hrect : ∀ row ∈ field, row.length = cols)
    (hsent : ∀ row ∈ field, ∀ buf ∈ row, 0 ∈ buf)
    (x y : Int)
    (hy1 : -(field.length : Int) ≤ y) (hy2 : y < field.length)
    (hx1 : -(cols : Int) ≤ x) (hx2 : x < cols) :
    get_screen_description field x y = some (cellText field cols x y) := by
  unfold get_screen_description
  rw [npIndex_in hy1 hy2, Option.some_bind]
  have hrow := get?_eq_getD ([] : List (List Nat)) (wrapIdx_lt hy1 hy2)
  rw [hrow, Option.some_bind]
  have hmem := getD_mem ([] : List (List Nat)) (wrapIdx_lt hy1 hy2)
  have hlen : (field.getD (wrapIdx field.length y) []).length = cols := hrect _ hmem
  rw [hlen, npIndex_in hx1 hx2, Option.some_bind]
  have hlt : wrapIdx cols x < (field.getD (wrapIdx field.length y) []).length := by
    rw [hlen]; exact wrapIdx_lt hx1 hx2
  have hbuf := get?_eq_getD ([] : List Nat) hlt
  rw [hbuf, Option.some_bind]
  have hbmem := getD_mem ([] : List Nat) hlt
  have hz : 0 ∈ (field.getD (wrapIdx field.length y) []).getD (wrapIdx cols x) [] :=
    hsent _ hmem _ hbmem
  rw [firstZeroIdx_map_take (firstZeroIdx_isSome hz)]
  rfl

/-- Characterization of a failing single-cell description lookup: outside
the numpy-acceptable coordinate range, the lookup raises. -/
lemma gsd_eq_none {field : List (List (List Nat))} {cols : Nat}
    (hrect : ∀ row ∈ field, row.length = cols) {x y : Int}
    (h : ¬(-(field.length : Int) ≤ y ∧ y < field.length ∧
          -(cols : Int) ≤ x ∧ x < cols)) :
    get_screen_description field x y = none := by
  unfold get_screen_description
  by_cases hy : -(field.length : Int) ≤ y ∧ y < field.length
  · have hx : x < -(cols : Int) ∨ (cols : Int) ≤ x := by
      rcases hy with ⟨hy1, hy2⟩
      by_contra hc
      exact h ⟨hy1, hy2, by omega, by omega⟩
    rw [npIndex_in hy.1 hy.2, Option.some_bind]
    rw [get?_eq_getD ([] : List (List Nat)) (wrapIdx_lt hy.1 hy.2), Option.some_bind]
    have hlen : (field.getD (wrapIdx field.length y) []).length = cols :=
      hrect _ (getD_mem ([] : List (List Nat)) (wrapIdx_lt hy.1 hy.2))
    rw [hlen, npIndex_out hx]
    rfl
  · rw [npIndex_out (by omega)]
    rfl

/-- Characterization of the neighborhood lookup when every one of the nine
coordinates is numpy-acceptable: the nine trimmed cell texts, rows outer
from y - 1 to y + 1, columns inner from x - 1 to x + 1. -/
lemma gnd_eq_some {field : List (List (List Nat))} {cols : Nat}
    (hrect : ∀ row ∈ field, row.length = cols)
    (hsent : ∀ row ∈ field, ∀ buf ∈ row, 0 ∈ buf)
    (x y : Int)
    (hx1 : -(cols : Int) ≤ x - 1) (hx2 : x + 1 < cols)
    (hy1 : -(field.length : Int) ≤ y - 1) (hy2 : y + 1 < field.length) :
    get_neighbor_descriptions field x y =
      some [cellText field cols (x - 1) (y - 1), cellText field cols x (y - 1),
            cellText field cols (x + 1) (y - 1), cellText field cols (x - 1) y,
            cellText field cols x y, cellText field cols (x + 1) y,
            cellText field cols (x - 1) (y + 1), cellText field cols x (y + 1),
            cellText field cols (x + 1) (y + 1)] := by
  unfold get_neighbor_descriptions
  rw [gsd_eq_some hrect hsent (x - 1) (y - 1) (by omega) (by omega) (by omega) (by omega),
      gsd_eq_some hrect hsent x (y - 1) (by omega) (by omega) (by omega) (by omega),
      gsd_eq_some hrect hsent (x + 1) (y - 1) (by omega) (by omega) (by omega) (by omega),
      gsd_eq_some hrect hsent (x - 1) y (by omega) (by omega) (by omega) (by omega),
      gsd_eq_some hrect hsent x y (by omega) (by omega) (by omega) (by omega),
      gsd_eq_some hrect hsent (x + 1) y (by omega) (by omega) (by omega) (by omega),
      gsd_eq_some hrect hsent (x - 1) (y + 1) (by omega) (by omega) (by omega) (by omega),
      gsd_eq_some hrect hsent x (y + 1) (by omega) (by omega) (by omega) (by omega),
      gsd_eq_some hrect hsent (x + 1) (y + 1) (by omega) (by omega) (by omega) (by omega)]
  rfl

/-- C2 (amended): for every rectangular field whose cell buffers all contain a
sentinel (zero) byte and all integer coordinates (x, y), the single-cell
description lookup returns the cell buffer trimmed at the first zero byte -
negative in-range coordinates resolving to the cell counted from the opposite
edge - and it fails with a lookup error if and only if (x, y) lies outside
the numpy-acceptable range [-cols, cols) x [-rows, rows); in particular it
never fails on a nonnegative in-bounds coordinate. -/
theorem get_screen_description_spec (field : List (List (List Nat))) (cols : Nat)
    (hrect : ∀ row ∈ field, row.length = cols)
    (hsent : ∀ row ∈ field, ∀ buf ∈ row, 0 ∈ buf) (x y : Int) :
    get_screen_description field x y =
      if -(field.length : Int) ≤ y ∧ y < field.length ∧ -(cols : Int) ≤ x ∧ x < cols
      then some (cellText field cols x y)
      else none := by
  split_ifs with h
  · exact gsd_eq_some hrect hsent x y h.1 h.2.1 h.2.2.1 h.2.2.2
  · exact gsd_eq_none hrect h

/-- Witness for C2 at a concrete 1 x 2 field and the in-bounds coordinate
(1, 0). -/
theorem get_screen_description_spec_witness :
    get_screen_description [[[102, 0], [98, 0]]] 1 0 = some [98] := by
  have h := get_screen_description_spec [[[102, 0], [98, 0]]] 2
    (by decide) (by decide) 1 0
  rw [h]
  decide

/-- C2 (counterexample to the claim as stated): on a 1 x 2 field the
coordinate x = -1 is outside the field bounds, yet the lookup does not fail -
it returns the trimmed buffer of the cell at the opposite edge. -/
theorem get_screen_description_negative_no_error :
    get_screen_description [[[102, 0], [98, 0]]] (-1) 0 = some [98] ∧
      (-1 : Int) < 0 := by decide

/-- C9: a negative coordinate with x in [-cols, -1] (or y in [-rows, -1]) does
not make the single-cell lookup fail: it returns the description of the cell
indexed from the opposite edge (the lookup at x equals the lookup at
x + cols, resp. y + rows); consequently the neighborhood lookup anchored on
column 0 succeeds and its west entry (index 3) is the trimmed text of the
far-edge cell (cols - 1) of the anchor row. -/
theorem negative_index_wrap (field : List (List (List Nat))) (cols : Nat)
    (hrect : ∀ row ∈ field, row.length = cols)
    (hsent : ∀ row ∈ field, ∀ buf ∈ row, 0 ∈ buf) :
    (∀ x y : Int, -(cols : Int) ≤ x → x < 0 → 0 ≤ y → y < field.length →
      get_screen_description field x y ≠ none ∧
      get_screen_description field x y = get_screen_description field (x + cols) y) ∧
    (∀ x y : Int, 0 ≤ x → x < cols → -(field.length : Int) ≤ y → y < 0 →
      get_screen_description field x y ≠ none ∧
      get_screen_description field x y = get_screen_description field x (y + field.length)) ∧
    (∀ y : Nat, 0 < y → y + 1 < field.length → 2 ≤ cols →
      ∃ l, get_neighbor_descriptions field 0 y = some l ∧
        l.get? 3 = some (trimZero (cellAt field y (cols - 1)))) := by
  refine ⟨?_, ?_, ?_⟩
  · intro x y hx1 hx2 hy1 hy2
    have e1 := gsd_eq_some hrect hsent x y
      (by omega) hy2 hx1 (by omega)
    have e2 := gsd_eq_some hrect hsent (x + cols) y
      (by omega) hy2 (by omega) (by omega)
    have hw : wrapIdx cols x = wrapIdx cols (x + cols) := by
      unfold wrapIdx; split_ifs <;> omega
    refine ⟨by rw [e1]; exact Option.some_ne_none _, ?_⟩
    rw [e1, e2]
    simp only [cellText, hw]
  · intro x y hx1 hx2 hy1 hy2
    have e1 := gsd_eq_some hrect hsent x y
      (by omega) (by omega) (by omega) (by omega)
    have e2 := gsd_eq_some hrect hsent x (y + field.length)
      (by omega) (by omega) (by omega) (by omega)
    have hw : wrapIdx field.length y = wrapIdx field.length (y + field.length) := by
      unfold wrapIdx; split_ifs <;> omega
    refine ⟨by rw [e1]; exact Option.some_ne_none _, ?_⟩
    rw [e1, e2]
    simp only [cellText, hw]
  · intro y hy0 hy1 hc
    have e := gnd_eq_some hrect hsent 0 (y : Int)
      (by omega) (by omega) (by omega) (by omega)
    refine ⟨_, e, ?_⟩
    have h1 : wrapIdx field.length (y : Int) = y := by
      unfold wrapIdx; split <;> omega
    have h2 : wrapIdx cols ((0 : Int) - 1) = cols - 1 := by
      unfold wrapIdx; split <;> omega
    simp only [List.get?, cellText, h1, h2]

/-- Witness for C9 at a concrete 3 x 2 field: the lookup at x = -1 equals the
lookup at x = -1 + 2 = 1. -/
theorem negative_index_wrap_witness :
    get_screen_description [[[1, 0], [2, 0]], [[3, 0], [4, 0]], [[5, 0], [6, 0]]]
        (-1) 0 =
      get_screen_description [[[1, 0], [2, 0]], [[3, 0], [4, 0]], [[5, 0], [6, 0]]]
        ((-1) + 2) 0 :=
  ((negative_index_wrap _ 2 (by decide) (by decide)).1 (-1) 0
    (by decide) (by decide) (by decide) (by decide)).2

lemma cellText_congr {field : List (List (List Nat))} {cols : Nat}
    {a a' b b' : Int} (h1 : a = a') (h2 : b = b') :
    cellText field cols a b = cellText field cols a' b' := by
  rw [h1, h2]

/-- C5 (amended): for every rectangular sentinel-terminated field and every
anchor (x, y) with x + 1 < cols and y + 1 < rows, the neighborhood lookup
returns exactly 9 per-cell text values in row-major order - rows outer from
y - 1 to y + 1 and columns inner from x - 1 to x + 1 - with the anchor cell
description at index 4. (For anchors with x + 1 = cols or y + 1 = rows
the operation raises a bounds error instead; see the counterexample.) -/
theorem get_neighbor_descriptions_spec (field : List (List (List Nat))) (cols : Nat)
    (hrect : ∀ row ∈ field, row.length = cols)
    (hsent : ∀ row ∈ field, ∀ buf ∈ row, 0 ∈ buf)
    (x y : Nat) (hx : x + 1 < cols) (hy : y + 1 < field.length) :
    ∃ l, get_neighbor_descriptions field x y = some l ∧ l.length = 9 ∧
      (∀ k : Nat, k < 9 →
        l.get? k = some (cellText field cols ((x : Int) - 1 + (k % 3 : Nat))
                          ((y : Int) - 1 + (k / 3 : Nat)))) ∧
      l.get? 4 = some (cellText field cols x y) := by
  have e := gnd_eq_some hrect hsent (x : Int) (y : Int)
    (by omega) (by omega) (by omega) (by omega)
  refine ⟨_, e, rfl, ?_, rfl⟩
  intro k hk
  interval_cases k <;> simp only [List.get?, Option.some.injEq] <;>
    exact cellText_congr (by omega) (by omega)

/-- Witness for C5 at a concrete 2 x 2 field with anchor (0, 0). -/
theorem get_neighbor_descriptions_spec_witness :
    ∃ l, get_neighbor_descriptions [[[1, 0], [2, 0]], [[3, 0], [4, 0]]]
        ((0 : Nat) : Int) ((0 : Nat) : Int) = some l ∧ l.length = 9 := by
  obtain ⟨l, hl, hlen, -, -⟩ :=
    get_neighbor_descriptions_spec [[[1, 0], [2, 0]], [[3, 0], [4, 0]]] 2
      (by decide) (by decide) 0 0 (by decide) (by decide)
  exact ⟨l, hl, hlen⟩

/-- C5 (counterexample to the claim as stated): on a 2 x 2 field the in-field
anchor (1, 1) touches row index 2 = rows, so the neighborhood lookup raises
instead of returning 9 values. -/
theorem get_neighbor_descriptions_edge_raises :
    get_neighbor_descriptions [[[1, 0], [2, 0]], [[3, 0], [4, 0]]] 1 1 = none := by
  decide

/-- C6: for every index in 0..8 the neighbor-index-to-direction mapping is
exactly the fixed table 121 'y', 107 'k', 117 'u', 104 'h', none, 108 'l',
98 'b', 106 'j', 110 'n'; in particular index 4 (the anchor itself) maps to
none. -/
theorem index_to_dir_action_table (i : Nat) (hi : i < 9) :
    index_to_dir_action i =
      [some 121, some 107, some 117, some 104, none,
       some 108, some 98, some 106, some 110].getD i none := by
  interval_cases i <;> rfl

/-- Witness for C6 at index 4. -/
theorem index_to_dir_action_table_witness : index_to_dir_action 4 = none := by
  have h := index_to_dir_action_table 4 (by omega)
  simpa using h

/-- The scan inside get_direction_obj returns index_to_dir_action of the
offset first index whose description contains the name. -/
lemma dirScan_eq (name : List Nat) (l : List (List Nat)) (i : Nat) :
    dirScan name l i =
      (l.findIdx? (fun d => containsSub d name) i).bind index_to_dir_action := by
  induction l generalizing i with
  | nil => rfl
  | cons d rest ih =>
    unfold dirScan
    rw [List.findIdx?_cons]
    by_cases hd : containsSub d name = true
    · rw [if_pos hd, if_pos hd]
      rfl
    · rw [if_neg hd, if_neg hd, ih (i + 1)]

/-- C7 (amended): for every name and every rectangular sentinel-terminated
field with an anchor satisfying x + 1 < cols and y + 1 < rows, the
find-direction operation scans the 9 neighborhood descriptions in index
order and returns the direction code of the first (lowest row-major index)
cell whose description contains the name as a substring, and returns none
when no neighborhood cell matches. (For anchors on the far edges the
operation raises a bounds error instead; see the counterexample.) -/
theorem get_direction_obj_spec (field : List (List (List Nat))) (cols : Nat)
    (hrect : ∀ row ∈ field, row.length = cols)
    (hsent : ∀ row ∈ field, ∀ buf ∈ row, 0 ∈ buf)
    (name : List Nat) (x y : Nat) (hx : x + 1 < cols) (hy : y + 1 < field.length) :
    ∃ l, get_neighbor_descriptions field x y = some l ∧
      get_direction_obj field name x y =
        some ((l.findIdx? fun d => containsSub d name).bind index_to_dir_action) := by
  have e := gnd_eq_some hrect hsent (x : Int) (y : Int)
    (by omega) (by omega) (by omega) (by omega)
  refine ⟨_, e, ?_⟩
  unfold get_direction_obj
  rw [e]
  simp only [Option.map_some', dirScan_eq]

/-- Witness for C7: on a concrete 2 x 2 field with anchor (0, 0), the name
occurring first at neighborhood index 1 yields the north direction code 107. -/
theorem get_direction_obj_spec_witness :
    get_direction_obj [[[1, 0], [2, 0]], [[3, 0], [4, 0]]] [3]
      ((0 : Nat) : Int) ((0 : Nat) : Int) = some (some 107) := by
  obtain ⟨l, hl, hg⟩ :=
    get_direction_obj_spec [[[1, 0], [2, 0]], [[3, 0], [4, 0]]] 2
      (by decide) (by decide) [3] 0 0 (by decide) (by decide)
  have hv : get_neighbor_descriptions [[[1, 0], [2, 0]], [[3, 0], [4, 0]]]
      ((0 : Nat) : Int) ((0 : Nat) : Int) =
      some [[4], [3], [4], [2], [1], [2], [4], [3], [4]] := by decide
  rw [hl] at hv
  obtain rfl := Option.some_injective _ hv
  rw [hg]
  decide

/-- C7 (counterexample to the claim as stated): on a 2 x 2 field with the
in-field anchor (1, 1) the operation raises a bounds error even though the
empty name is contained in every cell description. -/
theorem get_direction_obj_edge_raises :
    get_direction_obj [[[1, 0], [2, 0]], [[3, 0], [4, 0]]] [] 1 1 = none ∧
      containsSub [1] [] = true := by decide

/-- C1 (violation of the claimed crop contract, evaluated on the code): with
the odd window pair obs_crop_h = 5, obs_crop_w = 3 and pad value 0, on the
field [[1, 2], [3, 4]]:
at anchor (x, y) = (0, 0) the window center (5 // 2, 3 // 2) = (2, 1) holds 3,
the value of field cell (row 1, col 0), instead of the anchor value 1 - the
code pads dw before and dh after on both axes, so the window is shifted
vertically whenever dh is not dw; and at anchor (x, y) = (0, 1) the slice is
clipped to 4 rows, although the observation space the class itself declares
for every cropped key has shape (obs_crop_h, obs_crop_w) = (5, 3). -/
theorem crop_observation_divergence :
    crop_observation 5 3 0 [[1, 2], [3, 4]] (0, 0) =
      [[0, 0, 0], [0, 1, 2], [0, 3, 4], [0, 0, 0], [0, 0, 0]] ∧
    ((crop_observation 5 3 0 [[1, 2], [3, 4]] (0, 0)).getD 2 []).getD 1 0 = 3 ∧
    (([[1, 2], [3, 4]] : List (List Nat)).getD 0 []).getD 0 0 = 1 ∧
    (crop_observation 5 3 0 [[1, 2], [3, 4]] (0, 1)).length = 4 ∧
    (crop_observation 5 3 0 [[1, 2], [3, 4]] (0, 1)).length ≠
      (minihack_crop_space_shape 5 3).1 := by decide

/-- C3: whenever a reward manager is attached and its episode-end check on
(previous snapshot, action, current snapshot) returns true, the decision is
TASK_SUCCESSFUL; otherwise - check returns false, or no reward manager
attached - the decision is exactly the parent staircase check's; so a
termination signalled by the default staircase condition is never excluded. -/
theorem is_episode_end_spec {O A : Type} (rm : Option (O → A → O → Bool))
    (parentCheck : O → StepStatus) (prev : O) (act : A) (cur : O) :
    (∀ check, rm = some check → check prev act cur = true →
      is_episode_end rm parentCheck prev act cur = StepStatus.task_successful) ∧
    (∀ check, rm = some check → check prev act cur = false →
      is_episode_end rm parentCheck prev act cur = parentCheck cur) ∧
    (rm = none → is_episode_end rm parentCheck prev act cur = parentCheck cur) ∧
    (parentCheck cur = StepStatus.task_successful →
      is_episode_end rm parentCheck prev act cur = StepStatus.task_successful) := by
  refine ⟨?_, ?_, ?_, ?_⟩
  · intro check hrm hc
    subst hrm
    simp [is_episode_end, hc]
  · intro check hrm hc
    subst hrm
    simp [is_episode_end, hc]
  · intro hrm
    subst hrm
    rfl
  · intro hp
    cases rm with
    | none => exact hp
    | some check =>
      by_cases hc : check prev act cur = true
      · simp [is_episode_end, hc]
      · simp only [Bool.not_eq_true] at hc
        simp [is_episode_end, hc, hp]

/-- Witness for C3 with a concrete attached reward manager whose check fires. -/
theorem is_episode_end_spec_witness :
    is_episode_end (some fun _ _ _ => true) (fun _ => StepStatus.running)
      (0 : Nat) (0 : Nat) (0 : Nat) = StepStatus.task_successful :=
  (is_episode_end_spec (some fun _ _ _ => true)
    (fun _ => StepStatus.running) 0 0 0).1 _ rfl rfl

/-- C4: with a reward manager attached, reward_manager.reset() is invoked
exactly once during construction, before the underlying engine is set up, and
exactly once at the start of every reset() call, before the underlying
engine's reset; without a reward manager it is never invoked. -/
theorem reward_manager_reset_order :
    minihack_init_trace true = [Ev.rmReset, Ev.superInit, Ev.patchDes] ∧
    minihack_reset_trace true = [Ev.rmReset, Ev.superReset] ∧
    (minihack_init_trace true).count Ev.rmReset = 1 ∧
    (minihack_reset_trace true).count Ev.rmReset = 1 ∧
    minihack_init_trace false = [Ev.superInit, Ev.patchDes] ∧
    minihack_reset_trace false = [Ev.superReset] := by decide

/-- C8: constructing a MiniHack environment succeeds exactly when both window
dimensions are odd - an even obs_crop_h or obs_crop_w fails at construction
time with a fatal assertion error - while the crop operation itself carries
no oddity check at all: called directly with an even 2 x 2 window it still
returns a window. -/
theorem window_oddity_spec (h w : Nat) :
    ((∃ p, minihack_init_check h w = Except.ok p) ↔ h % 2 = 1 ∧ w % 2 = 1) ∧
    ((h % 2 = 0 ∨ w % 2 = 0) → ∃ e, minihack_init_check h w = Except.error e) ∧
    crop_observation 2 2 0 [[1, 2], [3, 4]] (0, 0) =
      [[0, 0, 0], [0, 1, 2], [0, 3, 4]] := by
  refine ⟨?_, ?_, by decide⟩
  · unfold minihack_init_check
    split_ifs with h1 h2
    · simp [h1, h2]
    · simp [h2]
    · simp [h1]
  · intro hev
    unfold minihack_init_check
    split_ifs with h1 h2
    · omega
    · exact ⟨_, rfl⟩
    · exact ⟨_, rfl⟩

/-- Witness for C8: an even height is rejected at construction, an odd pair
is accepted. -/
theorem window_oddity_spec_witness :
    (∃ e, minihack_init_check 4 5 = Except.error e) ∧
    (∃ p, minihack_init_check 5 5 = Except.ok p) :=
  ⟨(window_oddity_spec 4 5).2.1 (Or.inl rfl),
   (window_oddity_spec 5 5).1.mpr ⟨rfl, rfl⟩⟩

/-- C10: the inventory-key lookup scans the (letter, line) pairs in order and
returns the letter of the first line whose decoded text contains the name as
a substring, among only the lines strictly before the first all-zero line;
when no such line matches - even if a matching line exists after an all-zero
line - it returns None. -/
theorem key_in_inventory_spec (inv : List (Nat × List Nat)) (name : List Nat) :
    key_in_inventory inv name =
      ((inv.takeWhile fun p => !(p.2.all (· == 0))).find? fun p =>
        containsSub p.2 name).map Prod.fst := by
  induction inv with
  | nil => rfl
  | cons p rest ih =>
    obtain ⟨letter, line⟩ := p
    unfold key_in_inventory
    rw [List.takeWhile_cons]
    by_cases h0 : line.all (· == 0) = true
    · simp [h0]
    · by_cases hm : containsSub line name = true
      · simp [h0, hm, List.find?_cons]
      · simp [h0, hm, List.find?_cons, ih]

end MiniHack
